import Mathlib

/-!
Verification development for the isolation-forest core of the goguardml
repository (pkg/detectors/iforest/iforest.go and pkg/detectors/detector.go).

The Go code is shallowly embedded as follows.

* float64 values are modelled by the type F64 below: either NaN, a signed
  infinity, or an exact real number.  Finite float64 values are rational, so
  every finite value the program handles is represented exactly; rounding of
  arithmetic is idealised away (operations are exact on the fin fragment),
  while the special-value behaviour of IEEE-754 that the program's control
  flow depends on (0/0 = NaN, x/0 = +-Inf for x /= 0, comparisons with NaN
  being false, 2^NaN = NaN, 2^(-Inf) = 0) is modelled faithfully.
* The mutex field is dropped: all functions here are the sequential bodies
  of the Go methods, which is what the claims below quantify over.
* Go panics (index out of range inside percentile) are modelled as a
  distinguished error value that propagates, and errors returned by the
  encoding/gob library are modelled by gobError values.
* math/rand (an external library) is modelled by a concrete deterministic
  PRNG with the same interface (Intn, Float64, Perm); rand.Perm's algorithm
  is reproduced over this source.  Every theorem below is independent of the
  particular pseudo-random values drawn, except that concrete evaluation
  lemmas record the model PRNG's own state values.
-/

namespace IForest

/-- Model of a float64 value: NaN, a signed infinity (pos = true for +Inf),
or an exact finite real. -/
inductive F64 where
  | nan : F64
  | inf (pos : Bool) : F64
  | fin (x : ℝ) : F64

noncomputable section

/-- IEEE negation of a float64. -/
def F64.neg : F64 → F64
  | .nan => .nan
  | .inf s => .inf (!s)
  | .fin a => .fin (-a)

/-- IEEE addition of two float64 values (exact on finite values). -/
def F64.add : F64 → F64 → F64
  | .nan, _ => .nan
  | _, .nan => .nan
  | .inf s, .inf t => if s = t then .inf s else .nan
  | .inf s, .fin _ => .inf s
  | .fin _, .inf t => .inf t
  | .fin a, .fin b => .fin (a + b)

/-- IEEE subtraction, a - b = a + (-b). -/
def F64.sub (a b : F64) : F64 := F64.add a (F64.neg b)

/-- IEEE multiplication of two float64 values (exact on finite values). -/
def F64.mul : F64 → F64 → F64
  | .nan, _ => .nan
  | _, .nan => .nan
  | .inf s, .inf t => .inf (s == t)
  | .inf s, .fin b => if b = 0 then .nan else .inf (s == decide (0 < b))
  | .fin a, .inf t => if a = 0 then .nan else .inf (t == decide (0 < a))
  | .fin a, .fin b => .fin (a * b)

/-- IEEE division of two float64 values: 0/0 = NaN, x/0 = +-Inf for x /= 0
(the model has a single zero, whose sign is taken positive). -/
def F64.div : F64 → F64 → F64
  | .nan, _ => .nan
  | _, .nan => .nan
  | .inf _, .inf _ => .nan
  | .inf s, .fin b => if b < 0 then .inf (!s) else .inf s
  | .fin _, .inf _ => .fin 0
  | .fin a, .fin b => if b = 0 then (if a = 0 then .nan else .inf (0 < a)) else .fin (a / b)

/-- IEEE strict less-than on float64: any comparison with NaN is false. -/
def F64.blt : F64 → F64 → Bool
  | .nan, _ => false
  | _, .nan => false
  | .inf s, .inf t => !s && t
  | .inf s, .fin _ => !s
  | .fin _, .inf t => t
  | .fin a, .fin b => decide (a < b)

/-- IEEE greater-or-equal on float64: any comparison with NaN is false. -/
def F64.bge : F64 → F64 → Bool
  | .nan, _ => false
  | _, .nan => false
  | .inf s, .inf t => s || !t
  | .inf s, .fin _ => s
  | .fin _, .inf t => !t
  | .fin a, .fin b => decide (b ≤ a)

/-- IEEE equality test on float64: NaN == NaN is false. -/
def F64.beq : F64 → F64 → Bool
  | .inf s, .inf t => s == t
  | .fin a, .fin b => decide (a = b)
  | _, _ => false

/-- math.Pow(2, x) at the inputs the program produces: 2^NaN = NaN,
2^(+Inf) = +Inf, 2^(-Inf) = 0, and the exact real power on finite inputs. -/
def F64.pow2 : F64 → F64
  | .nan => .nan
  | .inf true => .inf true
  | .inf false => .fin 0
  | .fin x => .fin ((2 : ℝ) ^ x)

/-- Division of two genuinely finite float64 quantities, yielding an F64:
this is the IEEE rule at a finite numerator and denominator. -/
def fdivRR (a b : ℝ) : F64 :=
  if b = 0 then (if a = 0 then F64.nan else F64.inf (decide (0 < a))) else F64.fin (a / b)

end

/-- State of the modelled math/rand source (rand.New(rand.NewSource(seed))).
The concrete update below is a 64-bit linear congruential stand-in for Go's
generator; no theorem in this file depends on the particular values drawn. -/
structure RNGState where
  s : ℕ
deriving DecidableEq, Repr

/-- One raw draw of the modelled PRNG (64-bit LCG). -/
def rngNext (r : RNGState) : ℕ × RNGState :=
  let v := (6364136223846793005 * r.s + 1442695040888963407) % (2 ^ 64)
  (v, ⟨v⟩)

/-- rng.Intn(k): a uniform integer in [0, k).  Go panics for k <= 0; the
claims below only reach k >= 1. -/
def rngIntn (r : RNGState) (k : ℕ) : ℕ × RNGState :=
  let (v, r') := rngNext r
  (v % k, r')

/-- rng.Float64(): a value in [0, 1), returned as a rational. -/
def rngFloat64 (r : RNGState) : ℚ × RNGState :=
  let (v, r') := rngNext r
  ((v : ℚ) / 2 ^ 64, r')

/-- One step i of Go's rand.Perm loop: j := Intn(i+1); m[i] = m[j]; m[j] = i,
acting on the growing prefix m (of length i). -/
def rngPermStep (m : List ℕ) (i j : ℕ) : List ℕ :=
  if j = i then m ++ [i] else (m.set j i) ++ [m.getD j 0]

/-- rng.Perm(n): Go's rand.Perm algorithm over the modelled source. -/
def rngPerm (r : RNGState) (n : ℕ) : List ℕ × RNGState :=
  (List.range n).foldl
    (fun acc i =>
      let (j, r') := rngIntn acc.2 (i + 1)
      (rngPermStep acc.1 i j, r'))
    ([], r)

/-- ceil(log2 n) computed by structural recursion (fuel = n):
clog2F (fuel+1) n = clog2F fuel (ceil(n/2)) + 1 for n >= 2.  This models
int(math.Ceil(math.Log2(float64(n)))) from the source for n >= 1; at n = 0
the Go expression converts -Inf to an implementation-defined huge negative
int, which makes the depth guard in buildNode always fire, exactly as the
value 0 chosen here does. -/
def clog2F : ℕ → ℕ → ℕ
  | 0, _ => 0
  | fuel + 1, n => if n ≤ 1 then 0 else clog2F fuel ((n + 1) / 2) + 1

/-- ceil(log2 n), see clog2F. -/
def clog2 (n : ℕ) : ℕ := clog2F n n

/-- A node of an isolation tree (iforest.go, type node): the Go struct
conflates the two shapes and marks a leaf by left == right == nil; the
claims only deal with trees produced by buildNode, where an internal node
always has both children, so the inductive presentation is faithful. -/
inductive Node where
  | leaf (size : ℕ) : Node
  | internal (splitFeature : ℕ) (splitValue : F64) (left right : Node) : Node

/-- A single isolation tree (iforest.go, type iTree). -/
structure ITree where
  root : Node

/-- Error values surfaced by the modelled methods. -/
inductive GoErr where
  | errMsg (msg : String)
  | gobError (msg : String)
  | panicIndexOutOfRange
deriving DecidableEq

/-- The IsolationForest state (iforest.go).  The sync.RWMutex is dropped:
the claims below are about the sequential bodies of the methods.  nTrees and
sampleSize are Go ints, modelled as naturals (negative configurations make
the Go code panic at make() and are outside every claim). -/
structure IsolationForest where
  nTrees : ℕ
  sampleSize : ℕ
  contamination : F64
  threshold : F64
  maxDepth : ℕ
  rng : RNGState
  trees : List ITree
  trained : Bool
  avgPathLength : F64

/-- An anomaly-detection result (detector.go, type Score).  The Metadata
field is never set by the iforest package and is omitted. -/
structure Score where
  value : F64
  isAnomaly : Bool
  features : List F64

/-- Functional options for New (iforest.go, WithTrees / WithSampleSize /
WithContamination / WithSeed). -/
inductive IFOption where
  | withTrees (n : ℕ)
  | withSampleSize (n : ℕ)
  | withContamination (c : F64)
  | withSeed (seed : ℕ)

/-- Application of one functional option (the bodies of the four With*
closures). -/
def applyOption (f : IsolationForest) : IFOption → IsolationForest
  | .withTrees n => { f with nTrees := n }
  | .withSampleSize n => { f with sampleSize := n }
  | .withContamination c => { f with contamination := c }
  | .withSeed seed => { f with rng := ⟨seed⟩ }

/-- New (iforest.go lines 87-104): defaults, option application, then
maxDepth := ceil(log2(sampleSize)) from the configured sample size. -/
noncomputable def New (opts : List IFOption) : IsolationForest :=
  let f : IsolationForest :=
    { nTrees := 100
      sampleSize := 256
      contamination := .fin 0.1
      threshold := .fin 0.5
      maxDepth := 0
      rng := ⟨42⟩
      trees := []
      trained := false
      avgPathLength := .fin 0 }
  let f := opts.foldl applyOption f
  { f with maxDepth := clog2 f.sampleSize }

noncomputable section

/-- averagePathLength (iforest.go lines 271-279): the BST unsuccessful-search
normalizer c(n) with the source's literal Euler-Mascheroni constant.  Both
call sites pass float64 of a natural number (a subsample size or a leaf
size), so the function is modelled on ℕ. -/
def averagePathLength (n : ℕ) : ℝ :=
  if n ≤ 1 then 0
  else 2 * (Real.log ((n : ℝ) - 1) + 0.5772156649) - 2 * ((n : ℝ) - 1) / (n : ℝ)

/-- pathLength (iforest.go lines 258-269).  The returned float64 is always a
finite real (a natural depth plus averagePathLength of a natural size), so
the result type is ℝ.  An out-of-range feature access panics in Go; the
model totalizes it with NaN, which no claim below reaches. -/
def pathLength (sample : List F64) : Node → ℕ → ℝ
  | .leaf size, currentDepth => (currentDepth : ℝ) + averagePathLength size
  | .internal ft sv l r, currentDepth =>
    if F64.blt (sample.getD ft .nan) sv then pathLength sample l (currentDepth + 1)
    else pathLength sample r (currentDepth + 1)

/-- buildNode (iforest.go lines 157-203).  The rng is threaded explicitly
(Go mutates f.rng in place); the single min/max scan over column `feature`
is rendered as two folds with the source's comparisons, which read the same
cells and compute the same two values. -/
def buildNode (maxDepth : ℕ) (rng : RNGState) (data : List (List F64))
    (nFeatures depth : ℕ) : Node × RNGState :=
  let n := data.length
  if h : maxDepth ≤ depth ∨ n ≤ 1 then (.leaf n, rng)
  else
    let (feature, rng1) := rngIntn rng nFeatures
    let col0 : F64 := (data.headD []).getD feature .nan
    let minVal := (data.drop 1).foldl
      (fun m row => if F64.blt (row.getD feature .nan) m then row.getD feature .nan else m) col0
    let maxVal := (data.drop 1).foldl
      (fun m row => if F64.blt m (row.getD feature .nan) then row.getD feature .nan else m) col0
    if F64.beq minVal maxVal then (.leaf n, rng1)
    else
      let (u, rng2) := rngFloat64 rng1
      let splitValue := F64.add minVal (F64.mul (.fin (u : ℝ)) (F64.sub maxVal minVal))
      let leftData := data.filter (fun row => F64.blt (row.getD feature .nan) splitValue)
      let rightData := data.filter (fun row => !F64.blt (row.getD feature .nan) splitValue)
      let (leftNode, rng3) := buildNode maxDepth rng2 leftData nFeatures (depth + 1)
      let (rightNode, rng4) := buildNode maxDepth rng3 rightData nFeatures (depth + 1)
      (.internal feature splitValue leftNode rightNode, rng4)
termination_by maxDepth - depth
decreasing_by all_goals (push_neg at h; omega)

/-- buildTree (iforest.go lines 150-155). -/
def buildTree (maxDepth : ℕ) (rng : RNGState) (data : List (List F64))
    (nFeatures depth : ℕ) : ITree × RNGState :=
  let (root, rng') := buildNode maxDepth rng data nFeatures depth
  (⟨root⟩, rng')

/-- predictOne, the lock-free body (iforest.go lines 243-256).  Its Go error
result is the literal nil on every path, so the model returns the score
alone.  totalPath is a genuine finite real; the two divisions are the IEEE
ones, so a forest with zero trees yields 0/0 = NaN and a zero avgPathLength
yields NaN or 0 depending on the numerator, exactly as math.Pow(2, x) does
on the corresponding special exponents. -/
def predictOne (f : IsolationForest) (sample : List F64) : F64 :=
  let totalPath : ℝ := f.trees.foldl (fun acc tree => acc + pathLength sample tree.root 0) 0
  let avgPath : F64 := fdivRR totalPath (f.trees.length : ℝ)
  F64.pow2 (F64.div (F64.neg avgPath) f.avgPathLength)

/-- predict, the lock-free body (iforest.go lines 217-229).  The loop checks
the per-sample error, but predictOne's error is the literal nil, so the loop
is a map over the batch in input order. -/
def predict (f : IsolationForest) (data : List (List F64)) : List F64 :=
  data.map (predictOne f)

/-- Predict (iforest.go lines 205-215). -/
def Predict (f : IsolationForest) (data : List (List F64)) : Except GoErr (List F64) :=
  if f.trained = false then .error (.errMsg "model not trained")
  else .ok (predict f data)

/-- PredictOne, the exported method (iforest.go lines 231-241). -/
def PredictOne (f : IsolationForest) (sample : List F64) : Except GoErr F64 :=
  if f.trained = false then .error (.errMsg "model not trained")
  else .ok (predictOne f sample)

/-- PredictStream (iforest.go lines 281-315), specialised to the scenario
the claims quantify over: a finite input sequence delivered on the channel
followed by channel close, with no cancellation observed.  The loop body
scores each sample with PredictOne, skips it if that call errs (continue),
and otherwise emits a Score whose IsAnomaly compares the score with the
threshold field; on channel close it returns nil. -/
def PredictStream (f : IsolationForest) (inputs : List (List F64)) :
    Except GoErr (List Score) :=
  if f.trained = false then .error (.errMsg "model not trained")
  else .ok (inputs.filterMap (fun sample =>
    match PredictOne f sample with
    | .error _ => none
    | .ok score => some { value := score, isAnomaly := F64.bge score f.threshold,
                          features := sample }))

/-- The inner loop of percentile's insertion sort (iforest.go lines
408-412), acting on the reversed sorted prefix: the new element x is shifted
left past y exactly while x < y, the source's comparison. -/
def insertRight (x : F64) : List F64 → List F64
  | [] => [x]
  | y :: ys => if F64.blt x y then y :: insertRight x ys else x :: y :: ys

/-- The insertion sort of percentile (iforest.go lines 404-412): fold the
elements into a reversed sorted prefix and reverse at the end. -/
def insertionSort (l : List F64) : List F64 :=
  (l.foldl (fun acc x => insertRight x acc) []).reverse

/-- Go's int(x) conversion on a float64: truncation toward zero on finite
values; on NaN and infinities the conversion is implementation-defined and
the amd64 behaviour (minimal int64) is used, which no claim below reaches. -/
def goTruncF : F64 → ℤ
  | .fin x => if 0 ≤ x then ⌊x⌋ else -⌊-x⌋
  | _ => -(2 ^ 63)

/-- percentile (iforest.go lines 398-416).  The index arithmetic
int(float64(len(sorted)-1) * p / 100) is the modelled float64 arithmetic
followed by Go's int conversion; the out-of-range indexing panic of
sorted[idx] is modelled as the panic error value. -/
def percentile (data : List F64) (p : F64) : Except GoErr F64 :=
  if data.length = 0 then .ok (.fin 0)
  else
    let sorted := insertionSort data
    let idx : ℤ := goTruncF (F64.div (F64.mul (.fin ((data.length - 1 : ℕ) : ℝ)) p) (.fin 100))
    if 0 ≤ idx ∧ idx < (data.length : ℤ) then .ok (sorted.getD idx.toNat (.fin 0))
    else .error .panicIndexOutOfRange

/-- The tree-building loop of Fit (iforest.go lines 124-135): for each of
nTrees trees draw a permutation of [0, nSamples), keep the first sampleSize
indices, gather those rows and build a tree at depth 0. -/
def fitTreesLoop (maxDepth : ℕ) (data : List (List F64))
    (nSamples nFeatures sampleSize nTrees : ℕ) (rng : RNGState) :
    List ITree × RNGState :=
  (List.range nTrees).foldl
    (fun acc _ =>
      let (perm, r1) := rngPerm acc.2 nSamples
      let indices := perm.take sampleSize
      let sample := indices.map (fun idx => data.getD idx [])
      let (tree, r2) := buildTree maxDepth r1 sample nFeatures 0
      (acc.1 ++ [tree], r2))
    ([], rng)

/-- Fit (iforest.go lines 107-148).  The clamp sampleSize > nSamples is the
conditional below; f.maxDepth is read but never written.  When contamination
is greater than zero the freshly trained state scores the whole training set
and percentile gives the new threshold; a panic inside percentile propagates
out of Fit (modelled as its error value).  Note predict is called on the
already-mutated receiver, which differs from the returned forest only in the
threshold field, a field predict never reads. -/
def Fit (f : IsolationForest) (data : List (List F64)) :
    Except GoErr IsolationForest :=
  if data.length = 0 then .error (.errMsg "empty training data")
  else
    let nSamples := data.length
    let nFeatures := (data.headD []).length
    let sampleSize := if nSamples < f.sampleSize then nSamples else f.sampleSize
    let (trees, rng') := fitTreesLoop f.maxDepth data nSamples nFeatures sampleSize f.nTrees f.rng
    let f1 : IsolationForest :=
      { f with trees := trees, rng := rng',
               avgPathLength := .fin (averagePathLength sampleSize), trained := true }
    if F64.blt (.fin 0) f.contamination then
      match percentile (predict f1 data) (F64.mul (.fin 100) (F64.sub (.fin 1) f.contamination)) with
      | .error e => .error e
      | .ok t => .ok { f1 with threshold := t }
    else .ok f1

/-- One value in a gob stream, at the abstraction level of this model: the
typed values the six Encode/Decode calls of Save and Load transfer. -/
inductive GobItem where
  | gInt (n : ℕ)
  | gFloat (v : F64)
  | gTrees (ts : List ITree)
  | gTreesCorrupt (written : List ITree)

/-- A serialized model: the sequence of gob values in the buffer. -/
def Blob := List GobItem

/-- enc.Encode of an int field: succeeds and appends the value. -/
def gobEncodeInt (n : ℕ) : Except GoErr GobItem := .ok (.gInt n)

/-- enc.Encode of a float64 field: succeeds and appends the value. -/
def gobEncodeFloat (v : F64) : Except GoErr GobItem := .ok (.gFloat v)

/-- enc.Encode(f.trees): encoding/gob only transmits exported struct fields
and refuses a struct type that has none; iTree and node consist solely of
unexported fields, so compiling the encoder engine for the element type of
the slice fails regardless of the slice contents, and this Encode call
always returns the error "gob: type iforest.iTree has no exported fields". -/
def gobEncodeTrees (_ : List ITree) : Except GoErr GobItem :=
  .error (.gobError "type iforest.iTree has no exported fields")

/-- Save (iforest.go lines 317-349): trained check, then the six Encode
calls in field order, stopping at the first failure. -/
def Save (f : IsolationForest) : Except GoErr Blob :=
  if f.trained = false then .error (.errMsg "model not trained")
  else
    match gobEncodeInt f.nTrees with
    | .error e => .error e
    | .ok i1 =>
      match gobEncodeInt f.sampleSize with
      | .error e => .error e
      | .ok i2 =>
        match gobEncodeFloat f.contamination with
        | .error e => .error e
        | .ok i3 =>
          match gobEncodeFloat f.threshold with
          | .error e => .error e
          | .ok i4 =>
            match gobEncodeFloat f.avgPathLength with
            | .error e => .error e
            | .ok i5 =>
              match gobEncodeTrees f.trees with
              | .error e => .error e
              | .ok i6 => .ok [i1, i2, i3, i4, i5, i6]

/-- dec.Decode into an int field: consumes the next gob value if it is an
int, fails with EOF on an exhausted stream and with a type mismatch
otherwise. -/
def gobDecodeInt : Blob → Except GoErr (ℕ × Blob)
  | .gInt n :: rest => .ok (n, rest)
  | [] => .error (.gobError "EOF")
  | _ :: _ => .error (.gobError "type mismatch")

/-- dec.Decode into a float64 field. -/
def gobDecodeFloat : Blob → Except GoErr (F64 × Blob)
  | .gFloat v :: rest => .ok (v, rest)
  | [] => .error (.gobError "EOF")
  | _ :: _ => .error (.gobError "type mismatch")

/-- dec.Decode into the trees slice.  Unlike the scalar decodes, gob's
decode of a slice writes through the receiver before it is done: it installs
the slice and then decodes elements in place, so a value message whose
payload turns out corrupt mid-way fails only after f.trees has already been
replaced (possibly with a partially decoded slice).  The first component of
the result is the value the receiver's field holds afterwards (the old one
when the failure precedes any write: end of stream, or a type check that
fails while compiling the decoder engine), the second the decode outcome.
gTrees is a well-formed trees value, gTreesCorrupt one whose payload breaks
mid-decode after writing the given partially decoded slice.  No stream Save
produces reaches either shape; both are kept so that Load's success path
(lines 378-381) and gob's partial-write failure are represented. -/
def gobDecodeTrees (old : List ITree) : Blob → List ITree × Except GoErr Blob
  | .gTrees ts :: rest => (ts, .ok rest)
  | .gTreesCorrupt written :: _ =>
    (written, .error (.gobError "corrupt trees payload"))
  | [] => (old, .error (.gobError "EOF"))
  | _ :: _ => (old, .error (.gobError "type mismatch"))

/-- Load (iforest.go lines 352-382).  Each Decode writes straight into the
corresponding field before the next one runs, so the function returns the
forest state as left behind together with the error, if any: on the error
paths the fields already decoded keep their new values.  On full success
maxDepth is recomputed from the decoded sampleSize and the forest is marked
trained. -/
def Load (f : IsolationForest) (blob : Blob) : IsolationForest × Option GoErr :=
  match gobDecodeInt blob with
  | .error e => (f, some e)
  | .ok (v1, b1) =>
    let f1 := { f with nTrees := v1 }
    match gobDecodeInt b1 with
    | .error e => (f1, some e)
    | .ok (v2, b2) =>
      let f2 := { f1 with sampleSize := v2 }
      match gobDecodeFloat b2 with
      | .error e => (f2, some e)
      | .ok (v3, b3) =>
        let f3 := { f2 with contamination := v3 }
        match gobDecodeFloat b3 with
        | .error e => (f3, some e)
        | .ok (v4, b4) =>
          let f4 := { f3 with threshold := v4 }
          match gobDecodeFloat b4 with
          | .error e => (f4, some e)
          | .ok (v5, b5) =>
            let f5 := { f4 with avgPathLength := v5 }
            match gobDecodeTrees f5.trees b5 with
            | (v6, .error e) => ({ f5 with trees := v6 }, some e)
            | (v6, .ok _) =>
              ({ f5 with trees := v6, maxDepth := clog2 f5.sampleSize,
                         trained := true }, none)

/-- Threshold (iforest.go lines 384-389). -/
def Threshold (f : IsolationForest) : F64 := f.threshold

/-- SetThreshold (iforest.go lines 391-396). -/
def SetThreshold (f : IsolationForest) (t : F64) : IsolationForest :=
  { f with threshold := t }

/-- The forest state produced by fitting New(WithTrees(1)) on the single
sample [0]: one tree, a depth-0 leaf of size 1, avg_path_length = c(1) = 0,
and a NaN threshold (the training score is 2^(-(0/1)/0) = 2^NaN = NaN and
the 90th percentile of [NaN] is NaN).  The rng value is the model PRNG's
state after the one permutation drawn. -/
def fit1Forest : IsolationForest where
  nTrees := 1
  sampleSize := 256
  contamination := .fin 0.1
  threshold := .nan
  maxDepth := 8
  rng := ⟨10481999410520546993⟩
  trees := [⟨.leaf 1⟩]
  trained := true
  avgPathLength := .fin 0

/-- The forest state produced by fitting New(WithTrees(0)) on the single
sample [0]: Fit succeeds without building any tree, marks the forest
trained, and the threshold calibration scores [0] as 2^(-(0/0)/0) = NaN, so
the stored threshold is NaN.  The rng is untouched by the empty loop. -/
def fit0Forest : IsolationForest where
  nTrees := 0
  sampleSize := 256
  contamination := .fin 0.1
  threshold := .nan
  maxDepth := 8
  rng := ⟨42⟩
  trees := []
  trained := true
  avgPathLength := .fin 0

/-- A small trained forest of the shape Fit produces at effective subsample
size 2: one tree that is a single leaf of size 2 (all rows equal on the
drawn feature), with avg_path_length = c(2) > 0.  Used as a concrete
instance at which the score bound applies. -/
def c2WitnessForest : IsolationForest where
  nTrees := 1
  sampleSize := 2
  contamination := .fin 0.1
  threshold := .fin 0.5
  maxDepth := 1
  rng := ⟨42⟩
  trees := [⟨.leaf 2⟩]
  trained := true
  avgPathLength := .fin (averagePathLength 2)

/-- The property claimed of scores: a finite value in [0, 1]. -/
def scoreInUnit (v : F64) : Prop := ∃ r : ℝ, v = .fin r ∧ 0 ≤ r ∧ r ≤ 1

end

theorem averagePathLength_pos {n : ℕ} (hn : 2 ≤ n) : 0 < averagePathLength n := by
  unfold averagePathLength
  rw [if_neg (by omega)]
  rcases eq_or_lt_of_le hn with h2 | h3
  · rw [← h2]
    norm_num [Real.log_one]
  · have h3' : (3 : ℝ) ≤ (n : ℝ) := by exact_mod_cast h3
    have hpos : (0 : ℝ) < (n : ℝ) := by linarith
    have hlog : Real.log 2 ≤ Real.log ((n : ℝ) - 1) :=
      Real.log_le_log (by norm_num) (by linarith)
    have hl2 : (0.6931471803 : ℝ) < Real.log 2 := Real.log_two_gt_d9
    have hfrac : 2 * ((n : ℝ) - 1) / (n : ℝ) < 2 := by
      rw [div_lt_iff hpos]
      linarith
    linarith

theorem averagePathLength_nonneg (n : ℕ) : 0 ≤ averagePathLength n := by
  by_cases h : n ≤ 1
  · unfold averagePathLength
    rw [if_pos h]
  · exact le_of_lt (averagePathLength_pos (by omega))

theorem pathLength_nonneg (sample : List F64) (node : Node) (depth : ℕ) :
    0 ≤ pathLength sample node depth := by
  induction node generalizing depth with
  | leaf size =>
    unfold pathLength
    have := averagePathLength_nonneg size
    positivity
  | internal ft sv l r ihl ihr =>
    unfold pathLength
    by_cases h : F64.blt (sample.getD ft .nan) sv
    · rw [if_pos h]; exact ihl (depth + 1)
    · rw [if_neg h]; exact ihr (depth + 1)

theorem totalPath_nonneg (sample : List F64) (trees : List ITree) (init : ℝ)
    (h : 0 ≤ init) :
    0 ≤ trees.foldl (fun acc tree => acc + pathLength sample tree.root 0) init := by
  induction trees generalizing init with
  | nil => exact h
  | cons t ts ih =>
    exact ih _ (add_nonneg h (pathLength_nonneg sample t.root 0))

theorem Fit_ok_spec {f g : IsolationForest} {data : List (List F64)}
    (h : Fit f data = .ok g) :
    0 < data.length ∧
    g.nTrees = f.nTrees ∧ g.sampleSize = f.sampleSize ∧
    g.contamination = f.contamination ∧ g.maxDepth = f.maxDepth ∧
    g.trained = true ∧
    g.trees = (fitTreesLoop f.maxDepth data data.length (data.headD []).length
      (if data.length < f.sampleSize then data.length else f.sampleSize)
      f.nTrees f.rng).1 ∧
    g.avgPathLength = .fin (averagePathLength
      (if data.length < f.sampleSize then data.length else f.sampleSize)) := by
  simp only [Fit] at h
  split at h
  · exact absurd h (by simp)
  · constructor
    · omega
    · split at h
      · split at h
        · exact absurd h (by simp)
        · rw [Except.ok.injEq] at h
          subst h
          simp
      · rw [Except.ok.injEq] at h
        subst h
        simp

theorem predictOne_bounds (f : IsolationForest) (x : List F64)
    (hne : f.trees ≠ []) (a : ℝ) (ha : f.avgPathLength = .fin a) (hapos : 0 < a) :
    ∃ r : ℝ, predictOne f x = .fin r ∧ 0 ≤ r ∧ r ≤ 1 := by
  have key : predictOne f x = F64.pow2 (F64.div (F64.neg (fdivRR
      (f.trees.foldl (fun acc tree => acc + pathLength x tree.root 0) 0)
      (f.trees.length : ℝ))) f.avgPathLength) := by
    simp only [predictOne]
  rw [key]
  set total : ℝ := f.trees.foldl (fun acc tree => acc + pathLength x tree.root 0) 0 with htot
  have htotnn : 0 ≤ total := totalPath_nonneg x f.trees 0 le_rfl
  have hlen0 : f.trees.length ≠ 0 := by
    simpa [List.length_eq_zero] using hne
  have hlen : (f.trees.length : ℝ) ≠ 0 := Nat.cast_ne_zero.mpr hlen0
  have hlenpos : (0 : ℝ) < (f.trees.length : ℝ) := by
    exact_mod_cast Nat.pos_of_ne_zero hlen0
  have havg : fdivRR total (f.trees.length : ℝ) = .fin (total / (f.trees.length : ℝ)) := by
    unfold fdivRR
    rw [if_neg hlen]
  rw [havg, ha]
  have hexp : (0 : ℝ) ≤ total / (f.trees.length : ℝ) := div_nonneg htotnn (le_of_lt hlenpos)
  simp only [F64.neg, F64.div]
  rw [if_neg (by positivity : ¬ (a = 0))]
  simp only [F64.pow2]
  refine ⟨(2 : ℝ) ^ (-(total / (f.trees.length : ℝ)) / a), rfl, ?_, ?_⟩
  · positivity
  · apply Real.rpow_le_one_of_one_le_of_nonpos (by norm_num)
    apply div_nonpos_of_nonpos_of_nonneg (by linarith) (le_of_lt hapos)

theorem clog2_256 : clog2 256 = 8 := by decide

theorem rngPerm_42_1 : rngPerm ⟨42⟩ 1 = ([0], ⟨10481999410520546993⟩) := by decide

theorem New1_eval : New [.withTrees 1] =
    { nTrees := 1, sampleSize := 256, contamination := .fin 0.1,
      threshold := .fin 0.5, maxDepth := 8, rng := ⟨42⟩, trees := [],
      trained := false, avgPathLength := .fin 0 } := by
  simp only [New, List.foldl_cons, List.foldl_nil, applyOption, clog2_256]

theorem New0_eval : New [.withTrees 0] =
    { nTrees := 0, sampleSize := 256, contamination := .fin 0.1,
      threshold := .fin 0.5, maxDepth := 8, rng := ⟨42⟩, trees := [],
      trained := false, avgPathLength := .fin 0 } := by
  simp only [New, List.foldl_cons, List.foldl_nil, applyOption, clog2_256]

theorem buildNode_single (rng : RNGState) (row : List F64) (nFeatures : ℕ) :
    buildNode 8 rng [row] nFeatures 0 = (.leaf 1, rng) := by
  rw [buildNode]
  simp

theorem fitLoop1_eval : fitTreesLoop 8 [[F64.fin 0]] 1 1 1 1 ⟨42⟩ =
    ([⟨.leaf 1⟩], ⟨10481999410520546993⟩) := by
  have hr : List.range 1 = [0] := by decide
  unfold fitTreesLoop
  rw [hr, List.foldl_cons, List.foldl_nil]
  dsimp only
  rw [rngPerm_42_1]
  dsimp only [List.take, List.map, List.getD, List.get?, buildTree]
  rw [buildNode_single]
  rfl

theorem fitLoop0_eval (data : List (List F64)) (nSamples nFeatures sampleSize : ℕ)
    (rng : RNGState) :
    fitTreesLoop 8 data nSamples nFeatures sampleSize 0 rng = ([], rng) := by
  unfold fitTreesLoop
  rw [List.range_zero, List.foldl_nil]

theorem predictOne_leaf1 (f : IsolationForest) (x : List F64)
    (ht : f.trees = [⟨.leaf 1⟩]) (ha : f.avgPathLength = .fin 0) :
    predictOne f x = .nan := by
  simp only [predictOne, ht, ha, List.foldl_cons, List.foldl_nil,
    List.length_cons, List.length_nil, pathLength, averagePathLength]
  norm_num [fdivRR, F64.neg, F64.div, F64.pow2]

theorem predictOne_noTrees (f : IsolationForest) (x : List F64)
    (ht : f.trees = []) : predictOne f x = .nan := by
  simp only [predictOne, ht, List.foldl_nil, List.length_nil]
  norm_num [fdivRR, F64.neg, F64.div, F64.pow2]

theorem percentile_single_fin (v : F64) (c : ℝ) : percentile [v] (.fin c) = .ok v := by
  simp only [percentile, insertionSort, insertRight, List.foldl_cons,
    List.foldl_nil, List.reverse_cons, List.reverse_nil, List.nil_append,
    List.length_cons, List.length_nil, F64.mul, F64.div, goTruncF, List.getD]
  norm_num

theorem Fit1_eval : Fit (New [.withTrees 1]) [[F64.fin 0]] = .ok fit1Forest := by
  rw [New1_eval]
  unfold Fit
  dsimp only [List.length_cons, List.length_nil, List.headD]
  rw [if_neg (by norm_num)]
  norm_num
  rw [fitLoop1_eval]
  dsimp only
  rw [if_pos (show F64.blt (.fin 0) (.fin (1 / 10)) = true by
    simp only [F64.blt, decide_eq_true_eq]
    norm_num)]
  rw [show predict
      { nTrees := 1, sampleSize := 256, contamination := .fin (1 / 10),
        threshold := .fin (1 / 2), maxDepth := 8,
        rng := ⟨10481999410520546993⟩, trees := [⟨.leaf 1⟩], trained := true,
        avgPathLength := .fin (averagePathLength 1) }
      [[F64.fin 0]] = [F64.nan] by
    simp only [predict, List.map]
    rw [predictOne_leaf1 _ _ rfl (by norm_num [averagePathLength])]]
  rw [show F64.mul (.fin 100) (F64.sub (.fin 1) (.fin (1 / 10))) =
      .fin (100 * (1 + -(1 / 10))) by
    simp [F64.mul, F64.sub, F64.add, F64.neg]]
  rw [percentile_single_fin]
  simp only [fit1Forest]
  norm_num [averagePathLength]

theorem Fit0_eval : Fit (New [.withTrees 0]) [[F64.fin 0]] = .ok fit0Forest := by
  rw [New0_eval]
  unfold Fit
  dsimp only [List.length_cons, List.length_nil, List.headD]
  rw [if_neg (by norm_num)]
  norm_num
  rw [fitLoop0_eval]
  dsimp only
  rw [if_pos (show F64.blt (.fin 0) (.fin (1 / 10)) = true by
    simp only [F64.blt, decide_eq_true_eq]
    norm_num)]
  rw [show predict
      { nTrees := 0, sampleSize := 256, contamination := .fin (1 / 10),
        threshold := .fin (1 / 2), maxDepth := 8,
        rng := ⟨42⟩, trees := [], trained := true,
        avgPathLength := .fin (averagePathLength 1) }
      [[F64.fin 0]] = [F64.nan] by
    simp only [predict, List.map]
    rw [predictOne_noTrees _ _ rfl]]
  rw [show F64.mul (.fin 100) (F64.sub (.fin 1) (.fin (1 / 10))) =
      .fin (100 * (1 + -(1 / 10))) by
    simp [F64.mul, F64.sub, F64.add, F64.neg]]
  rw [percentile_single_fin]
  simp only [fit0Forest]
  norm_num [averagePathLength]

theorem filterMap_always_some {α β : Type} (g : α → β) (F : α → Option β)
    (l : List α) (hF : ∀ a, F a = some (g a)) : l.filterMap F = l.map g := by
  induction l with
  | nil => rfl
  | cons a l ih => simp [List.filterMap_cons, hF, ih]

theorem predict_threshold_irrel (f : IsolationForest) (t : F64)
    (data : List (List F64)) :
    predict { f with threshold := t } data = predict f data := rfl

/-- C1: the spec promises that for every trained forest F, Load(Save(F))
succeeds and yields a forest with identical predictions.  The code cannot
deliver this: Save gob-encodes f.trees, whose element type iTree (like node)
has no exported fields, which encoding/gob rejects, so Save fails on every
trained forest and the round trip never happens.  This contradicts the
repository's own TestSaveLoad, so the claim is a code bug, witnessed here by
evaluating Save on any trained forest. -/
theorem C1_save_always_fails (f : IsolationForest) (h : f.trained = true) :
    Save f = .error (.gobError "type iforest.iTree has no exported fields") ∧
    ∀ b : Blob, Save f ≠ .ok b := by
  constructor
  · simp [Save, h, gobEncodeInt, gobEncodeFloat, gobEncodeTrees]
  · intro b hb
    rw [(by simp [Save, h, gobEncodeInt, gobEncodeFloat, gobEncodeTrees] :
      Save f = .error (.gobError "type iforest.iTree has no exported fields"))] at hb
    exact absurd hb (by simp)

/-- Witness for C1_save_always_fails at the concrete trained forest
fit1Forest. -/
theorem C1_save_always_fails_witness :
    fit1Forest.trained = true ∧
    Save fit1Forest = .error (.gobError "type iforest.iTree has no exported fields") :=
  ⟨rfl, (C1_save_always_fails fit1Forest rfl).1⟩

/-- C6: for a trained forest and a finite input sequence followed by channel
close, PredictStream (absent cancellation) succeeds and emits exactly one
Score per input, in input order, whose value is the PredictOne score and
whose isAnomaly flag compares that value with the threshold. -/
theorem C6_predictStream_spec (f : IsolationForest) (inputs : List (List F64))
    (h : f.trained = true) :
    PredictStream f inputs = .ok (inputs.map (fun s =>
      { value := predictOne f s, isAnomaly := F64.bge (predictOne f s) f.threshold,
        features := s })) ∧
    (∀ out, PredictStream f inputs = .ok out → out.length = inputs.length) ∧
    (∀ s, PredictOne f s = .ok (predictOne f s)) := by
  have hok : PredictStream f inputs = .ok (inputs.map (fun s =>
      { value := predictOne f s, isAnomaly := F64.bge (predictOne f s) f.threshold,
        features := s })) := by
    simp only [PredictStream, h]
    rw [if_neg (by simp)]
    rw [filterMap_always_some (fun s =>
      ({ value := predictOne f s, isAnomaly := F64.bge (predictOne f s) f.threshold,
         features := s } : Score)) _ inputs (fun s => by simp [PredictOne, h])]
  refine ⟨hok, fun out hout => ?_, fun s => by simp [PredictOne, h]⟩
  rw [hok] at hout
  injection hout with hout
  rw [← hout, List.length_map]

/-- Witness for C6_predictStream_spec at the trained forest fit1Forest with
the single-sample input stream. -/
theorem C6_predictStream_spec_witness :
    PredictStream fit1Forest [[F64.fin 0]] = .ok ([[F64.fin 0]].map (fun s =>
      { value := predictOne fit1Forest s,
        isAnomaly := F64.bge (predictOne fit1Forest s) fit1Forest.threshold,
        features := s })) ∧
    (∀ out, PredictStream fit1Forest [[F64.fin 0]] = .ok out →
      out.length = [[F64.fin 0]].length) ∧
    (∀ s, PredictOne fit1Forest s = .ok (predictOne fit1Forest s)) :=
  C6_predictStream_spec fit1Forest [[F64.fin 0]] rfl

/-- C7: scoring or saving an untrained forest fails with the not-trained
error, and Predict / PredictOne fail that way exactly when the forest is
untrained: on a trained forest they succeed. -/
theorem C7_not_trained_gate (f : IsolationForest) (d : List (List F64))
    (x : List F64) :
    (f.trained = false →
      Predict f d = .error (.errMsg "model not trained") ∧
      PredictOne f x = .error (.errMsg "model not trained") ∧
      Save f = .error (.errMsg "model not trained")) ∧
    (f.trained = true →
      Predict f d = .ok (predict f d) ∧
      PredictOne f x = .ok (predictOne f x)) := by
  constructor
  · intro h
    refine ⟨?_, ?_, ?_⟩ <;> simp [Predict, PredictOne, Save, h]
  · intro h
    constructor <;> simp [Predict, PredictOne, h]

/-- Witness for C7_not_trained_gate: the untrained New([]) forest errs on
Predict, PredictOne and Save, and the trained fit1Forest scores
successfully. -/
theorem C7_not_trained_gate_witness :
    Predict (New []) [[F64.fin 0]] = .error (.errMsg "model not trained") ∧
    PredictOne (New []) [F64.fin 0] = .error (.errMsg "model not trained") ∧
    Save (New []) = .error (.errMsg "model not trained") ∧
    Predict fit1Forest [[F64.fin 0]] = .ok (predict fit1Forest [[F64.fin 0]]) ∧
    PredictOne fit1Forest [F64.fin 0] = .ok (predictOne fit1Forest [F64.fin 0]) := by
  have h1 := (C7_not_trained_gate (New []) [[F64.fin 0]] [F64.fin 0]).1 rfl
  have h2 := (C7_not_trained_gate fit1Forest [[F64.fin 0]] [F64.fin 0]).2 rfl
  exact ⟨h1.1, h1.2.1, h1.2.2, h2.1, h2.2⟩

/-- C8: whenever Predict returns a score vector for a batch, the vector has
the batch's length and its i-th entry is exactly the PredictOne score of the
i-th sample. -/
theorem C8_predict_pointwise (f : IsolationForest) (B : List (List F64))
    (v : List F64) (h : Predict f B = .ok v) :
    v.length = B.length ∧
    ∀ i, i < B.length → PredictOne f (B.getD i []) = .ok (v.getD i .nan) := by
  unfold Predict at h
  by_cases ht : f.trained = false
  · rw [if_pos ht] at h
    exact absurd h (by simp)
  · rw [if_neg ht] at h
    have ht' : f.trained = true := by
      revert ht; cases f.trained <;> simp
    injection h with h
    subst h
    constructor
    · simp [predict]
    · intro i hi
      simp only [PredictOne, ht']
      rw [if_neg (by simp)]
      congr 1
      simp [predict, List.getD_eq_getElem?_getD, List.getElem?_map,
        List.getElem?_eq_getElem hi]

/-- Witness for C8_predict_pointwise at the trained forest fit1Forest and a
one-sample batch. -/
theorem C8_predict_pointwise_witness :
    ([predictOne fit1Forest [F64.fin 0]].length = [[F64.fin 0]].length) ∧
    ∀ i, i < [[F64.fin 0]].length →
      PredictOne fit1Forest ([[F64.fin 0]].getD i []) =
        .ok ([predictOne fit1Forest [F64.fin 0]].getD i .nan) :=
  C8_predict_pointwise fit1Forest [[F64.fin 0]]
    [predictOne fit1Forest [F64.fin 0]] (by simp [Predict, predict, fit1Forest])

/-- C9: training is deterministic in the seed.  Two forests that agree on
the whole configuration (n_trees, sample_size, contamination, the derived
max_depth, and the seeded rng state) and are both successfully fitted on the
same dataset give identical predictions, batch or single-sample, on every
input.  In this pure embedding of the seeded PRNG the fit of a forest is a
function of exactly these fields and the data, which is the determinism the
spec asserts: the code draws randomness only from the seeded source, in a
fixed order. -/
theorem C9_fit_deterministic (f₁ f₂ : IsolationForest) (D : List (List F64))
    (g₁ g₂ : IsolationForest)
    (h1 : f₁.nTrees = f₂.nTrees) (h2 : f₁.sampleSize = f₂.sampleSize)
    (h3 : f₁.contamination = f₂.contamination) (h4 : f₁.maxDepth = f₂.maxDepth)
    (h5 : f₁.rng = f₂.rng)
    (hf1 : Fit f₁ D = .ok g₁) (hf2 : Fit f₂ D = .ok g₂) :
    (∀ x, PredictOne g₁ x = PredictOne g₂ x) ∧
    (∀ B, Predict g₁ B = Predict g₂ B) := by
  obtain ⟨-, -, -, -, -, htr1, htrees1, ha1⟩ := Fit_ok_spec hf1
  obtain ⟨-, -, -, -, -, htr2, htrees2, ha2⟩ := Fit_ok_spec hf2
  have htrees : g₁.trees = g₂.trees := by
    rw [htrees1, htrees2, h1, h2, h4, h5]
  have hapl : g₁.avgPathLength = g₂.avgPathLength := by
    rw [ha1, ha2, h2]
  have hone : ∀ x, predictOne g₁ x = predictOne g₂ x := fun x => by
    simp [predictOne, htrees, hapl]
  constructor
  · intro x
    simp [PredictOne, htr1, htr2, hone]
  · intro B
    simp [Predict, predict, htr1, htr2, hone]

/-- Witness for C9_fit_deterministic: two identically configured forests
(New(WithTrees(1)) twice) fitted on the same one-sample dataset. -/
theorem C9_fit_deterministic_witness :
    (∀ x, PredictOne fit1Forest x = PredictOne fit1Forest x) ∧
    (∀ B, Predict fit1Forest B = Predict fit1Forest B) :=
  C9_fit_deterministic (New [.withTrees 1]) (New [.withTrees 1]) [[F64.fin 0]]
    fit1Forest fit1Forest rfl rfl rfl rfl rfl Fit1_eval Fit1_eval

/-- C10: New performs no validation, so with WithTrees(0) Fit on a
non-empty dataset succeeds and marks the forest trained with an empty tree
slice, after which predictOne divides by zero trees and PredictOne returns
NaN rather than a score in [0, 1]. -/
theorem C10_withTrees0_nan :
    Fit (New [.withTrees 0]) [[F64.fin 0]] = .ok fit0Forest ∧
    fit0Forest.trained = true ∧ fit0Forest.trees = [] ∧
    predictOne fit0Forest [F64.fin 0] = .nan ∧
    PredictOne fit0Forest [F64.fin 0] = .ok .nan ∧
    scoreInUnit F64.nan = False := by
  refine ⟨Fit0_eval, by rfl, by rfl, ?_, ?_, ?_⟩
  · exact predictOne_noTrees _ _ rfl
  · simp [PredictOne, predictOne_noTrees fit0Forest [F64.fin 0] rfl,
      show fit0Forest.trained = true from rfl]
  · exact eq_false (by rintro ⟨r, hr, -⟩; cases hr)

/-- C2 (amended): PredictOne returns a finite score in [0, 1] on every
sample for every trained forest that has at least one tree and a positive
finite stored normalizer avg_path_length — the state Fit produces whenever
the effective subsample size is at least 2 and n_trees is at least 1.  When
the effective subsample size is 1, avg_path_length = c(1) = 0 and the score
is NaN instead (see C2_counterexample). -/
theorem C2_predictOne_in_unit (f : IsolationForest) (x : List F64)
    (htr : f.trained = true) (hne : f.trees ≠ []) (a : ℝ)
    (ha : f.avgPathLength = .fin a) (hapos : 0 < a) :
    ∃ r : ℝ, PredictOne f x = .ok (.fin r) ∧ 0 ≤ r ∧ r ≤ 1 := by
  obtain ⟨r, hr, h0, h1⟩ := predictOne_bounds f x hne a ha hapos
  exact ⟨r, by simp [PredictOne, htr, hr], h0, h1⟩

/-- Witness for C2_predictOne_in_unit at a concrete trained forest whose
normalizer is c(2) > 0. -/
theorem C2_predictOne_in_unit_witness :
    ∃ r : ℝ, PredictOne c2WitnessForest [F64.fin 0] = .ok (.fin r) ∧
      0 ≤ r ∧ r ≤ 1 :=
  C2_predictOne_in_unit c2WitnessForest [F64.fin 0] rfl
    (by simp [c2WitnessForest]) (averagePathLength 2) rfl
    (averagePathLength_pos (by norm_num))

/-- C2 counterexample: fitting New(WithTrees(1)) on the single sample [0]
(effective subsample size 1, so c(1) = 0) yields a trained forest whose
PredictOne score on the in-dimension sample [0] is NaN — not a value in
[0, 1] — because the score is 2^(-(0/1)/0) = 2^NaN. -/
theorem C2_counterexample :
    Fit (New [.withTrees 1]) [[F64.fin 0]] = .ok fit1Forest ∧
    fit1Forest.trained = true ∧
    PredictOne fit1Forest [F64.fin 0] = .ok .nan ∧
    scoreInUnit F64.nan = False := by
  refine ⟨Fit1_eval, by rfl, ?_, ?_⟩
  · simp [PredictOne, predictOne_leaf1 fit1Forest [F64.fin 0] rfl rfl,
      show fit1Forest.trained = true from rfl]
  · exact eq_false (by rintro ⟨r, hr, -⟩; cases hr)

/-- C3 counterexample: with the default sample_size 256 and a one-sample
dataset (effective subsample size 1), Fit leaves max_depth at
ceil(log2 256) = 8, not ceil(log2 of the clamped size) = 0. -/
theorem C3_counterexample :
    Fit (New [.withTrees 1]) [[F64.fin 0]] = .ok fit1Forest ∧
    fit1Forest.maxDepth = 8 ∧
    clog2 (min (New [.withTrees 1]).sampleSize [[F64.fin 0]].length) = 0 ∧
    (fit1Forest.maxDepth ==
      clog2 (min (New [.withTrees 1]).sampleSize [[F64.fin 0]].length)) = false := by
  have hs : (New [.withTrees 1]).sampleSize = 256 := by rw [New1_eval]
  refine ⟨Fit1_eval, by rfl, ?_, ?_⟩
  · rw [hs]
    decide
  · rw [hs]
    decide

/-- C3 (amended): after a successful Fit the forest's max_depth is
ceil(log2(sample_size)) of the CONFIGURED sample size, assigned by New and
never recomputed by Fit from the clamped effective subsample size. -/
theorem C3_maxDepth_from_configured (opts : List IFOption)
    (data : List (List F64)) (g : IsolationForest)
    (h : Fit (New opts) data = .ok g) :
    g.maxDepth = clog2 (New opts).sampleSize := by
  obtain ⟨-, -, -, -, hmd, -, -, -⟩ := Fit_ok_spec h
  rw [hmd]
  simp [New]

/-- Witness for C3_maxDepth_from_configured at the fitted fit1Forest. -/
theorem C3_maxDepth_from_configured_witness :
    fit1Forest.maxDepth = clog2 (New [.withTrees 1]).sampleSize :=
  C3_maxDepth_from_configured [.withTrees 1] [[F64.fin 0]] fit1Forest Fit1_eval

/-- C4 counterexample: loading the one-value gob stream [int 7] into a
fresh New() forest fails with EOF at the second field, yet n_trees has
already been overwritten with 7 (it was 100), so the observable state after
the failed Load differs from the state before it. -/
theorem C4_counterexample :
    (Load (New []) [.gInt 7]).2 = some (.gobError "EOF") ∧
    (Load (New []) [.gInt 7]).1.nTrees = 7 ∧
    (New []).nTrees = 100 := by
  refine ⟨?_, ?_, by rfl⟩ <;> simp [Load, gobDecodeInt]

/-- C4 (amended): Load is not atomic on failure — configuration fields
decoded before the failing Decode keep their freshly decoded values (see
C4_counterexample), and a failure inside the trees decode can additionally
leave a partially decoded tree slice behind — but max_depth and the trained
flag are assigned by Load itself only after all six Decode calls succeed, so
every failed Load leaves those two unchanged. -/
theorem C4_load_failure_keeps_model (f : IsolationForest) (b : Blob)
    (h : (Load f b).2 ≠ none) :
    (Load f b).1.trained = f.trained ∧ (Load f b).1.maxDepth = f.maxDepth := by
  rcases hb1 : gobDecodeInt b with e1 | ⟨v1, b1⟩
  · simp [Load, hb1]
  · rcases hb2 : gobDecodeInt b1 with e2 | ⟨v2, b2⟩
    · simp [Load, hb1, hb2]
    · rcases hb3 : gobDecodeFloat b2 with e3 | ⟨v3, b3⟩
      · simp [Load, hb1, hb2, hb3]
      · rcases hb4 : gobDecodeFloat b3 with e4 | ⟨v4, b4⟩
        · simp [Load, hb1, hb2, hb3, hb4]
        · rcases hb5 : gobDecodeFloat b4 with e5 | ⟨v5, b5⟩
          · simp [Load, hb1, hb2, hb3, hb4, hb5]
          · rcases hb6 : gobDecodeTrees f.trees b5 with ⟨v6, e6 | b6⟩
            · simp [Load, hb1, hb2, hb3, hb4, hb5, hb6]
            · exfalso
              apply h
              simp [Load, hb1, hb2, hb3, hb4, hb5, hb6]

/-- A failed Load can mutate the tree slice: a stream whose first five
values decode but whose sixth (trees) value has a corrupt payload errors out
of Load after gob has already written the partially decoded slice into
f.trees.  This is why the amended C4 does not list the trees among the
fields a failed Load preserves. -/
theorem Load_corrupt_trees_mutates :
    (Load (New []) [.gInt 1, .gInt 2, .gFloat (.fin 0), .gFloat (.fin 0),
      .gFloat (.fin 0), .gTreesCorrupt [⟨.leaf 3⟩]]).2 = some (.gobError "corrupt trees payload") ∧
    (Load (New []) [.gInt 1, .gInt 2, .gFloat (.fin 0), .gFloat (.fin 0),
      .gFloat (.fin 0), .gTreesCorrupt [⟨.leaf 3⟩]]).1.trees = [⟨.leaf 3⟩] ∧
    (New []).trees = [] := by
  refine ⟨?_, ?_, by rfl⟩ <;>
    simp [Load, gobDecodeInt, gobDecodeFloat, gobDecodeTrees]

/-- Witness for C4_load_failure_keeps_model: loading the empty blob into a
fresh New() forest fails immediately and changes nothing. -/
theorem C4_load_failure_keeps_model_witness :
    (Load (New []) []).2 ≠ none ∧
    ((Load (New []) []).1.trained = (New []).trained ∧
     (Load (New []) []).1.maxDepth = (New []).maxDepth) :=
  ⟨by simp [Load, gobDecodeInt],
   C4_load_failure_keeps_model (New []) [] (by simp [Load, gobDecodeInt])⟩

theorem percentile_ok_fin (scores : List F64) (q : ℝ) (t : F64)
    (hlen : scores.length ≠ 0) (h : percentile scores (.fin q) = .ok t) :
    t = (insertionSort scores).getD
      (⌊((scores.length : ℝ) - 1) * q / 100⌋).toNat (.fin 0) := by
  unfold percentile at h
  rw [if_neg hlen] at h
  have hone : 1 ≤ scores.length := Nat.one_le_iff_ne_zero.mpr hlen
  have hcast : ((scores.length - 1 : ℕ) : ℝ) = (scores.length : ℝ) - 1 := by
    rw [Nat.cast_sub hone, Nat.cast_one]
  set x : ℝ := ((scores.length : ℝ) - 1) * q / 100 with hxdef
  have hdivmul : F64.div (F64.mul (.fin ((scores.length - 1 : ℕ) : ℝ)) (.fin q))
      (.fin 100) = .fin x := by
    simp only [F64.mul, F64.div]
    rw [if_neg (by norm_num : ¬((100 : ℝ) = 0)), hcast, hxdef]
  rw [hdivmul] at h
  dsimp only at h
  by_cases hx0 : 0 ≤ x
  · rw [show goTruncF (.fin x) = ⌊x⌋ from by simp [goTruncF, hx0]] at h
    split at h
    · rw [Except.ok.injEq] at h
      exact h.symm
    · exact absurd h (by simp)
  · have hxneg : x < 0 := lt_of_not_ge hx0
    rw [show goTruncF (.fin x) = -⌊-x⌋ from by simp [goTruncF, hx0]] at h
    split at h
    next hcond =>
      have h2 : (0 : ℤ) ≤ ⌊-x⌋ := Int.floor_nonneg.mpr (by linarith)
      have h3 : ⌊-x⌋ = 0 := by omega
      have hxlow : (-1 : ℝ) ≤ x := by
        have := Int.lt_floor_add_one (-x)
        rw [h3] at this
        push_cast at this
        linarith
      have h4 : ⌊x⌋ = -1 := by
        rw [Int.floor_eq_iff]
        constructor
        · push_cast
          linarith
        · push_cast
          linarith
      rw [Except.ok.injEq] at h
      rw [← h, h3, h4]
      rw [show ((-0 : ℤ)).toNat = ((-1 : ℤ)).toNat from by decide]
    next hcond => exact absurd h (by simp)

theorem Fit_ok_threshold_pos (f : IsolationForest) (data : List (List F64))
    (g : IsolationForest) (c : ℝ) (h : Fit f data = .ok g)
    (hc : f.contamination = .fin c) (hcpos : 0 < c) :
    percentile (predict g data) (.fin (100 * (1 + -c))) = .ok g.threshold := by
  have hd : data.length ≠ 0 := by
    have := (Fit_ok_spec h).1
    omega
  simp only [Fit] at h
  rw [if_neg hd, hc] at h
  rw [show F64.blt (.fin 0) (.fin c) = true from by
    simp only [F64.blt, decide_eq_true_eq]
    exact hcpos] at h
  rw [if_pos rfl] at h
  rw [show F64.mul (.fin 100) (F64.sub (.fin 1) (.fin c)) =
      .fin (100 * (1 + -c)) from by
    simp [F64.mul, F64.sub, F64.add, F64.neg]] at h
  split at h
  · exact absurd h (by simp)
  case h_2 t heq =>
    rw [Except.ok.injEq] at h
    subst h
    exact heq

theorem Fit_ok_threshold_zero (f : IsolationForest) (data : List (List F64))
    (g : IsolationForest) (h : Fit f data = .ok g)
    (hc : f.contamination = .fin 0) : g.threshold = f.threshold := by
  have hd : data.length ≠ 0 := by
    have := (Fit_ok_spec h).1
    omega
  simp only [Fit] at h
  rw [if_neg hd, hc] at h
  rw [show F64.blt (.fin 0) (.fin 0) = false from by simp [F64.blt]] at h
  rw [if_neg (by simp)] at h
  rw [Except.ok.injEq] at h
  subst h
  rfl

/-- C5: after a successful Fit with contamination = c > 0, the threshold
equals the entry at index ⌊(n-1)(1-c)⌋ of the ascending-sorted training
scores of the entire dataset (scored by the freshly trained forest, whose
pending threshold the scores do not depend on); with contamination = 0, Fit
leaves the threshold at its prior value (0.5 at a first fit). -/
theorem C5_threshold_percentile (f : IsolationForest) (data : List (List F64))
    (g : IsolationForest) (h : Fit f data = .ok g) :
    (∀ c : ℝ, f.contamination = .fin c → 0 < c →
      g.threshold = (insertionSort (predict g data)).getD
        (⌊((data.length : ℝ) - 1) * (1 - c)⌋).toNat (.fin 0)) ∧
    (f.contamination = .fin 0 → g.threshold = f.threshold) := by
  constructor
  · intro c hc hcpos
    have hd : data.length ≠ 0 := by
      have := (Fit_ok_spec h).1
      omega
    have hp := Fit_ok_threshold_pos f data g c h hc hcpos
    have hlen : (predict g data).length = data.length := by simp [predict]
    have hs := percentile_ok_fin _ _ _ (by rw [hlen]; exact hd) hp
    rw [hlen] at hs
    have hidx : ((data.length : ℝ) - 1) * (100 * (1 + -c)) / 100 =
        ((data.length : ℝ) - 1) * (1 - c) := by
      ring
    rw [hidx] at hs
    exact hs
  · exact Fit_ok_threshold_zero f data g h

/-- Witness for C5_threshold_percentile at the concrete fit of
New(WithTrees(1)) on [[0]] with the default contamination 0.1. -/
theorem C5_threshold_percentile_witness :
    (New [.withTrees 1]).contamination = .fin 0.1 ∧
    fit1Forest.threshold = (insertionSort (predict fit1Forest [[F64.fin 0]])).getD
      (⌊(([[F64.fin 0]].length : ℝ) - 1) * (1 - 0.1)⌋).toNat (.fin 0) := by
  constructor
  · rw [New1_eval]
  · exact (C5_threshold_percentile _ _ _ Fit1_eval).1 0.1 (by rw [New1_eval])
      (by norm_num)

end IForest
